import Mathlib

/-!
Verification of the scenario automation engine in `src/core/scenario_runner.py`
(class `ScenarioRunner`).  The runner iterates a list of action dictionaries,
checks a stop flag before each action, dispatches the action against a
selenium driver inside a per-action try/except, and reports progress through
a log callback and extraction results through a result callback.

The embedding below is a shallow model of that code:

* `Action` models one action dictionary; `none` in a field models an absent
  key, mirroring Python's `dict.get`.
* `StepEnv` is an oracle giving the outcome of every driver call the dispatch
  of one action may perform.  `Except.error e` models the selenium call
  raising an exception whose rendered message is `e`.  Pure queries that the
  driver answers totally in the source's usage, namely `find_elements`
  (returns a possibly empty list, never raises) and
  `switch_to.active_element` (returns the focused element or the body), are
  modelled as total.
* `Event` is the observable trace: emitted log lines (strings built exactly
  as the source's f-strings build them), session-level side effects (one per
  state-changing driver call, recorded with the call's arguments whether or
  not the call then raises), and result batches handed to the result
  callback.
* `ScenarioRunner.run` threads the caller's action list through the loop and
  returns it, so that non-mutation is a provable frame property, and returns
  the runner's `_stopped` field as it is when `run` returns.
* The asynchronous `stop()` call is modelled by the time it lands:
  `stopAt = some t` means the flag becomes set after the check of iteration
  `t - 1` and before the check of iteration `t` (iterations are 1-based, as
  in the source's `enumerate(actions, start=1)`); `stopAt = none` means no
  stop call lands during this run.  Since `stop()` only ever sets the flag,
  a single landing time determines every read.
-/

deriving instance DecidableEq for Except

namespace WebCrwBot

/-- Python `str.lower` as the source applies it (per-character ASCII case
folding of selector-free key and direction strings). -/
def lowerStr (s : String) : String :=
  ⟨s.data.map Char.toLower⟩

/-- Truthiness of `dict.get(field)` for a string field: Python's `if x:` is
false exactly on an absent key (`None`) and on the empty string. -/
def truthy : Option String → Bool
  | some s => !s.isEmpty
  | none => false

/-- Rendering of an optional string in an f-string: Python prints `None` for
a missing value. -/
def pyStr : Option String → String
  | some s => s
  | none => "None"

/-- The selenium key constant `Keys.ENTER`, the one-character string of the
WebDriver codepoint U+E007. -/
def Keys.ENTER : String := "\uE007"

/-- The selenium key constant `Keys.TAB`, the one-character string of the
WebDriver codepoint U+E004. -/
def Keys.TAB : String := "\uE004"

/-- The selenium key constant `Keys.ESCAPE`, the one-character string of the
WebDriver codepoint U+E00C. -/
def Keys.ESCAPE : String := "\uE00C"

/-- The selenium key constant `Keys.BACKSPACE`, the one-character string of
the WebDriver codepoint U+E003 (selenium aliases BACKSPACE to BACK_SPACE). -/
def Keys.BACKSPACE : String := "\uE003"

example : Keys.ENTER.data = [Char.ofNat 0xE007] := by decide

example : Keys.TAB.data = [Char.ofNat 0xE004] := by decide

example : Keys.ESCAPE.data = [Char.ofNat 0xE00C] := by decide

example : Keys.BACKSPACE.data = [Char.ofNat 0xE003] := by decide

example : [Keys.ENTER, Keys.TAB, Keys.ESCAPE, Keys.BACKSPACE, ""].Nodup := by decide

/-- A page element as the runner observes it: only its rendered text is ever
read (`element.text` in the extract branch). -/
structure Elem where
  text : String
deriving DecidableEq

/-- One scenario action: the Python dictionary consumed by
`ScenarioRunner.run`, with one optional field per key the source reads.
`none` models an absent key. -/
structure Action where
  type : Option String := none
  description : Option String := none
  url : Option String := none
  selector : Option String := none
  text : Option String := none
  key : Option String := none
  direction : Option String := none
  amount : Option Int := none
  seconds : Option Int := none
  allField : Option Bool := none
deriving DecidableEq

/-- Oracle for the driver calls one action's dispatch may make.  Each
`Except String` field is the outcome of the corresponding selenium call:
`ok` means the call returns, `error e` means it raises with message `e`. -/
structure StepEnv where
  navResult : Except String Unit := Except.ok ()
  findResult : Except String Elem := Except.ok ⟨""⟩
  clickResult : Except String Unit := Except.ok ()
  clearResult : Except String Unit := Except.ok ()
  sendKeysResult : Except String Unit := Except.ok ()
  activeElement : Option Elem := some ⟨""⟩
  activeSendResult : Except String Unit := Except.ok ()
  scrollResult : Except String Unit := Except.ok ()
  sleepResult : Except String Unit := Except.ok ()
  findAllResult : List Elem := []
deriving DecidableEq

/-- A session-level side effect: one state-changing driver call, recorded
with its arguments.  The call is recorded whether or not it then raises. -/
inductive Effect where
  | navigate (url : String)
  | click (selector : String)
  | clearElem (selector : String)
  | sendKeysTo (selector : String) (text : String)
  | sendKeysActive (key : String)
  | scrollBy (delta : Int)
  | sleep (seconds : Int)
deriving DecidableEq

/-- One extracted record: the dictionary built per matched element in the
extract branch, an association of the fixed key `text` to the element's
rendered text. -/
abbrev ExtractedRecord := List (String × String)

/-- One observable event of a run: a log line handed to the log callback, a
session-level side effect, or one batch handed to the result callback. -/
inductive Event where
  | log (msg : String)
  | effect (e : Effect)
  | results (batch : List ExtractedRecord)
deriving DecidableEq

/-- The description used in log lines:
`action.get("description", action_type)`, rendered as Python renders it
(`None` when both keys are absent). -/
def descrOf (a : Action) : String :=
  match a.description with
  | some d => d
  | none => pyStr a.type

/-- The per-iteration progress line
`f"({idx}/{len(actions)}) Executing: {description}"`. -/
def progressMsg (i N : Nat) (a : Action) : String :=
  "(" ++ toString i ++ "/" ++ toString N ++ ") Executing: " ++ descrOf a

/-- Dispatch of the `open_url` branch body. -/
def dispatchOpenUrl (env : StepEnv) (a : Action) : List Event × Option String :=
  if truthy a.url then
    let u := a.url.getD ""
    match env.navResult with
    | Except.error e => ([Event.effect (Effect.navigate u)], some e)
    | Except.ok _ =>
        ([Event.effect (Effect.navigate u), Event.log ("Navigated to " ++ u)], none)
  else ([], none)

/-- Dispatch of the `click` branch body: `find_element` (a query, which may
raise before any effect), then `elem.click()`. -/
def dispatchClick (env : StepEnv) (a : Action) : List Event × Option String :=
  if truthy a.selector then
    let s := a.selector.getD ""
    match env.findResult with
    | Except.error e => ([], some e)
    | Except.ok _ =>
        match env.clickResult with
        | Except.error e => ([Event.effect (Effect.click s)], some e)
        | Except.ok _ =>
            ([Event.effect (Effect.click s), Event.log ("Clicked element " ++ s)], none)
  else ([], none)

/-- Dispatch of the `type` branch body: `find_element`, `elem.clear()`, then
`elem.send_keys(text)` with `text = action.get("text", "")`. -/
def dispatchType (env : StepEnv) (a : Action) : List Event × Option String :=
  if truthy a.selector then
    let s := a.selector.getD ""
    let t := a.text.getD ""
    match env.findResult with
    | Except.error e => ([], some e)
    | Except.ok _ =>
        match env.clearResult with
        | Except.error e => ([Event.effect (Effect.clearElem s)], some e)
        | Except.ok _ =>
            match env.sendKeysResult with
            | Except.error e =>
                ([Event.effect (Effect.clearElem s), Event.effect (Effect.sendKeysTo s t)], some e)
            | Except.ok _ =>
                ([Event.effect (Effect.clearElem s), Event.effect (Effect.sendKeysTo s t),
                  Event.log ("Typed text into " ++ s)], none)
  else ([], none)

/-- Resolution of a key through the source's mapping dictionary:
`mapping.get(key_lower, key)` with the original `key` as the default. -/
def resolveKey (k : String) : String :=
  let kl := lowerStr k
  if kl = "enter" then Keys.ENTER
  else if kl = "tab" then Keys.TAB
  else if kl = "escape" then Keys.ESCAPE
  else if kl = "backspace" then Keys.BACKSPACE
  else k

/-- Dispatch of the `keypress` branch body: the active element is fetched
first, then `if key and body:` guards the mapping and `body.send_keys`. -/
def dispatchKeypress (env : StepEnv) (a : Action) : List Event × Option String :=
  let body := env.activeElement
  if truthy a.key && body.isSome then
    let k := a.key.getD ""
    let kattr := resolveKey k
    match env.activeSendResult with
    | Except.error e => ([Event.effect (Effect.sendKeysActive kattr)], some e)
    | Except.ok _ =>
        ([Event.effect (Effect.sendKeysActive kattr),
          Event.log ("Sent key '" ++ k ++ "'")], none)
  else ([], none)

/-- Dispatch of the `scroll` branch body: lowercased direction defaulting to
`down`, amount defaulting to 500, delta negated unless the direction is
`down`, then `window.scrollBy` via `execute_script`. -/
def dispatchScroll (env : StepEnv) (a : Action) : List Event × Option String :=
  let dir := lowerStr (a.direction.getD "down")
  let amount := a.amount.getD 500
  let delta : Int := if dir = "down" then amount else -amount
  match env.scrollResult with
  | Except.error e => ([Event.effect (Effect.scrollBy delta)], some e)
  | Except.ok _ =>
      ([Event.effect (Effect.scrollBy delta),
        Event.log ("Scrolled " ++ (if delta > 0 then "down" else "up") ++ " by "
          ++ toString delta.natAbs ++ " pixels")], none)

/-- Dispatch of the `wait` branch body: `time.sleep(float(seconds))` with
`seconds` defaulting to 1, then the log line. -/
def dispatchWait (env : StepEnv) (a : Action) : List Event × Option String :=
  let secs := a.seconds.getD 1
  match env.sleepResult with
  | Except.error e => ([Event.effect (Effect.sleep secs)], some e)
  | Except.ok _ =>
      ([Event.effect (Effect.sleep secs),
        Event.log ("Waited for " ++ toString secs ++ " seconds")], none)

/-- Dispatch of the `extract` branch body: `find_elements` (total, possibly
empty), one record per element in document order, the count log, then the
result callback.  The field `action.get("all", True)` is read by the source
but never used. -/
def dispatchExtract (env : StepEnv) (a : Action) : List Event × Option String :=
  if truthy a.selector then
    let s := a.selector.getD ""
    let results := env.findAllResult.map (fun el => ([("text", el.text)] : ExtractedRecord))
    ([Event.log ("Extracted " ++ toString results.length ++ " elements using " ++ s),
      Event.results results], none)
  else ([], none)

/-- The body of the per-action try block: the `elif` chain on
`action.get("type")`.  Returns the events emitted before any raise together
with the raised message, if any. -/
def dispatchStep (env : StepEnv) (a : Action) : List Event × Option String :=
  if a.type = some "open_url" then dispatchOpenUrl env a
  else if a.type = some "click" then dispatchClick env a
  else if a.type = some "type" then dispatchType env a
  else if a.type = some "keypress" then dispatchKeypress env a
  else if a.type = some "scroll" then dispatchScroll env a
  else if a.type = some "wait" then dispatchWait env a
  else if a.type = some "extract" then dispatchExtract env a
  else ([Event.log ("Unknown action type: " ++ pyStr a.type)], none)

/-- One action's dispatch with its surrounding `except Exception` handler: a
raise is converted into the error log line and never escapes. -/
def dispatchEvents (env : StepEnv) (a : Action) : List Event :=
  (dispatchStep env a).1 ++
    match (dispatchStep env a).2 with
    | some e => [Event.log ("Error executing action '" ++ descrOf a ++ "': " ++ e)]
    | none => []

/-- The full trace of one loop iteration that passes the stop check: the
progress log followed by the handled dispatch. -/
def segment (N : Nat) (env : StepEnv) (i : Nat) (a : Action) : List Event :=
  Event.log (progressMsg i N a) :: dispatchEvents env a

/-- The trace of iterations `i, i+1, ...` over a list of remaining actions
when no stop check fires: each action contributes its whole segment, in
order. -/
def segmentsFrom (N : Nat) (env : Nat → StepEnv) : Nat → List Action → List Event
  | _, [] => []
  | i, a :: rest => segment N (env i) i a ++ segmentsFrom N env (i + 1) rest

/-- The runner object: the `_stopped` instance field is its only state the
model needs (the driver handle is the `StepEnv` oracle). -/
structure ScenarioRunner where
  stopped : Bool
deriving DecidableEq

/-- The `__init__` method sets `self._stopped = False`. -/
def ScenarioRunner.init : ScenarioRunner := ⟨false⟩

/-- The `stop` method sets `self._stopped = True`; nothing ever resets it. -/
def ScenarioRunner.stop (_ : ScenarioRunner) : ScenarioRunner := ⟨true⟩

/-- The value the loop's stop check reads at iteration `i`, given the flag at
entry to `run` and the landing time of a `stop()` call during the run. -/
def stopRead (initStopped : Bool) (stopAt : Option Nat) (i : Nat) : Bool :=
  initStopped ||
    match stopAt with
    | some t => decide (t ≤ i)
    | none => false

/-- The `for idx, action in enumerate(actions, start=1)` loop.  Returns the
emitted events together with the caller's action list as the loop leaves it
(the source never writes to `actions` or to any action dictionary). -/
def runLoop (stopF : Nat → Bool) (env : Nat → StepEnv) (N : Nat) :
    Nat → List Action → List Event × List Action
  | _, [] => ([], [])
  | i, a :: rest =>
    if stopF i then ([Event.log "Scenario interrupted by user."], a :: rest)
    else
      let tail := runLoop stopF env N (i + 1) rest
      (segment N (env i) i a ++ tail.1, a :: tail.2)

/-- Everything observable when `run` returns. -/
structure RunResult where
  events : List Event
  actions : List Action
  runner : ScenarioRunner
deriving DecidableEq

/-- The `run` method: the loop over the actions followed by the
unconditional final log.  `run` itself never raises and never writes
`self._stopped`, so the returned flag is the entry flag joined with whether
a `stop()` call landed during the run. -/
def ScenarioRunner.run (r : ScenarioRunner) (stopAt : Option Nat)
    (env : Nat → StepEnv) (actions : List Action) : RunResult :=
  let res := runLoop (stopRead r.stopped stopAt) env actions.length 1 actions
  { events := res.1 ++ [Event.log "Scenario completed"]
    actions := res.2
    runner := ⟨r.stopped || stopAt.isSome⟩ }

/-- The log lines of a trace, in emission order. -/
def logsOf (evs : List Event) : List String :=
  evs.filterMap fun ev =>
    match ev with
    | Event.log m => some m
    | _ => none

/-- The session-level side effects of a trace, in order. -/
def effectsOf (evs : List Event) : List Effect :=
  evs.filterMap fun ev =>
    match ev with
    | Event.effect e => some e
    | _ => none

/-- The result batches of a trace, in delivery order. -/
def resultsOf (evs : List Event) : List (List ExtractedRecord) :=
  evs.filterMap fun ev =>
    match ev with
    | Event.results b => some b
    | _ => none

example :
    logsOf (ScenarioRunner.init.run none (fun _ => {})
      [{ type := some "open_url", url := some "https://x" }]).events
      = ["(1/1) Executing: open_url", "Navigated to https://x", "Scenario completed"] := by
  decide

example :
    logsOf ((ScenarioRunner.init.stop).run none (fun _ => {})
      [{ type := some "open_url", url := some "https://x" }]).events
      = ["Scenario interrupted by user.", "Scenario completed"] := by
  decide

/-! String-shape infrastructure: every log line a loop iteration can emit is
a constant head appended with action- or driver-dependent tails, so a line
whose head is not a prefix of a target string can never equal that target. -/

lemma head_pref (p u : String) : p.data <+: (p ++ u).data :=
  ⟨u.data, (String.data_append p u).symm⟩

lemma pref_snoc (p s t : String) (h : p.data <+: s.data) : p.data <+: (s ++ t).data := by
  obtain ⟨r, hr⟩ := h
  exact ⟨r ++ t.data, by rw [String.data_append, ← hr, List.append_assoc]⟩

lemma ne_of_head (p s t : String) (hp : p.data <+: s.data)
    (h : ¬ p.data <+: t.data) : s ≠ t :=
  fun he => h (he ▸ hp)

lemma append1_ne (p u t : String) (h : ¬ p.data <+: t.data) : p ++ u ≠ t :=
  ne_of_head p _ t (head_pref p u) h

lemma append2_ne (p u v t : String) (h : ¬ p.data <+: t.data) : p ++ u ++ v ≠ t :=
  ne_of_head p _ t (pref_snoc _ _ _ (head_pref p u)) h

lemma append3_ne (p u v w t : String) (h : ¬ p.data <+: t.data) :
    p ++ u ++ v ++ w ≠ t :=
  ne_of_head p _ t (pref_snoc _ _ _ (pref_snoc _ _ _ (head_pref p u))) h

lemma append4_ne (p u v w x t : String) (h : ¬ p.data <+: t.data) :
    p ++ u ++ v ++ w ++ x ≠ t :=
  ne_of_head p _ t
    (pref_snoc _ _ _ (pref_snoc _ _ _ (pref_snoc _ _ _ (head_pref p u)))) h

lemma append5_ne (p u v w x y t : String) (h : ¬ p.data <+: t.data) :
    p ++ u ++ v ++ w ++ x ++ y ≠ t :=
  ne_of_head p _ t
    (pref_snoc _ _ _
      (pref_snoc _ _ _ (pref_snoc _ _ _ (pref_snoc _ _ _ (head_pref p u))))) h

lemma logsOf_nil : logsOf [] = [] := rfl

lemma logsOf_cons_log (m : String) (l : List Event) :
    logsOf (Event.log m :: l) = m :: logsOf l := rfl

lemma logsOf_cons_effect (e : Effect) (l : List Event) :
    logsOf (Event.effect e :: l) = logsOf l := rfl

lemma logsOf_cons_results (b : List ExtractedRecord) (l : List Event) :
    logsOf (Event.results b :: l) = logsOf l := rfl

lemma logsOf_append (l₁ l₂ : List Event) :
    logsOf (l₁ ++ l₂) = logsOf l₁ ++ logsOf l₂ := by
  simp [logsOf]

set_option maxHeartbeats 1000000 in
/-- Every log line the try-block body of one dispatch can emit has one of
eight constant heads; a target string none of them prefixes is never
emitted there. -/
lemma notin_logsOf_step (env : StepEnv) (a : Action) (t : String)
    (h1 : ∀ u, "Navigated to " ++ u ≠ t)
    (h2 : ∀ u, "Clicked element " ++ u ≠ t)
    (h3 : ∀ u, "Typed text into " ++ u ≠ t)
    (h4 : ∀ u v, "Sent key '" ++ u ++ v ≠ t)
    (h5a : ∀ u v, "Scrolled down by " ++ u ++ v ≠ t)
    (h5b : ∀ u v, "Scrolled up by " ++ u ++ v ≠ t)
    (h6 : ∀ u v, "Waited for " ++ u ++ v ≠ t)
    (h7 : ∀ u v w, "Extracted " ++ u ++ v ++ w ≠ t)
    (h8 : ∀ u, "Unknown action type: " ++ u ≠ t) :
    t ∉ logsOf (dispatchStep env a).1 := by
  unfold dispatchStep dispatchOpenUrl dispatchClick dispatchType dispatchKeypress
    dispatchScroll dispatchWait dispatchExtract
  dsimp only
  repeat' split
  all_goals simp [logsOf]
  all_goals
    first
      | exact fun hh => (h1 _) hh.symm
      | exact fun hh => (h2 _) hh.symm
      | exact fun hh => (h3 _) hh.symm
      | exact fun hh => (h4 _ _) hh.symm
      | exact fun hh => (h5a _ _) hh.symm
      | exact fun hh => (h5b _ _) hh.symm
      | exact fun hh => (h6 _ _) hh.symm
      | exact fun hh => (h7 _ _ _) hh.symm
      | exact fun hh => (h8 _) hh.symm

/-- Extension of `notin_logsOf_step` across the except-handler: the only
extra line is the error log, whose head is also constant. -/
lemma notin_logsOf_dispatchEvents (env : StepEnv) (a : Action) (t : String)
    (h1 : ∀ u, "Navigated to " ++ u ≠ t)
    (h2 : ∀ u, "Clicked element " ++ u ≠ t)
    (h3 : ∀ u, "Typed text into " ++ u ≠ t)
    (h4 : ∀ u v, "Sent key '" ++ u ++ v ≠ t)
    (h5a : ∀ u v, "Scrolled down by " ++ u ++ v ≠ t)
    (h5b : ∀ u v, "Scrolled up by " ++ u ++ v ≠ t)
    (h6 : ∀ u v, "Waited for " ++ u ++ v ≠ t)
    (h7 : ∀ u v w, "Extracted " ++ u ++ v ++ w ≠ t)
    (h8 : ∀ u, "Unknown action type: " ++ u ≠ t)
    (h9 : ∀ u v w, "Error executing action '" ++ u ++ v ++ w ≠ t) :
    t ∉ logsOf (dispatchEvents env a) := by
  unfold dispatchEvents
  rw [logsOf_append]
  intro hmem
  rcases List.mem_append.mp hmem with hm | hm
  · exact notin_logsOf_step env a t h1 h2 h3 h4 h5a h5b h6 h7 h8 hm
  · rcases hstep : (dispatchStep env a).2 with _ | e <;> rw [hstep] at hm
    · simp [logsOf_nil] at hm
    · simp only [logsOf_cons_log, logsOf_nil, List.mem_cons, List.not_mem_nil,
        or_false] at hm
      exact (h9 _ _ _) hm.symm

/-- Extension of `notin_logsOf_dispatchEvents` to a whole loop iteration:
the progress line's head is the constant opening parenthesis. -/
lemma notin_logsOf_segment (N : Nat) (env : StepEnv) (i : Nat) (a : Action) (t : String)
    (h0 : ∀ u v w x y, "(" ++ u ++ v ++ w ++ x ++ y ≠ t)
    (h1 : ∀ u, "Navigated to " ++ u ≠ t)
    (h2 : ∀ u, "Clicked element " ++ u ≠ t)
    (h3 : ∀ u, "Typed text into " ++ u ≠ t)
    (h4 : ∀ u v, "Sent key '" ++ u ++ v ≠ t)
    (h5a : ∀ u v, "Scrolled down by " ++ u ++ v ≠ t)
    (h5b : ∀ u v, "Scrolled up by " ++ u ++ v ≠ t)
    (h6 : ∀ u v, "Waited for " ++ u ++ v ≠ t)
    (h7 : ∀ u v w, "Extracted " ++ u ++ v ++ w ≠ t)
    (h8 : ∀ u, "Unknown action type: " ++ u ≠ t)
    (h9 : ∀ u v w, "Error executing action '" ++ u ++ v ++ w ≠ t) :
    t ∉ logsOf (segment N env i a) := by
  unfold segment
  rw [logsOf_cons_log]
  intro hmem
  rcases List.mem_cons.mp hmem with hm | hm
  · exact (h0 _ _ _ _ _) hm.symm
  · exact notin_logsOf_dispatchEvents env a t h1 h2 h3 h4 h5a h5b h6 h7 h8 h9 hm

/-- The terminal line `Scenario completed` is never emitted by a loop
iteration's segment. -/
lemma completed_notin_segment (N : Nat) (env : StepEnv) (i : Nat) (a : Action) :
    "Scenario completed" ∉ logsOf (segment N env i a) :=
  notin_logsOf_segment N env i a _
    (fun _ _ _ _ _ => append5_ne _ _ _ _ _ _ _ (by decide))
    (fun _ => append1_ne _ _ _ (by decide))
    (fun _ => append1_ne _ _ _ (by decide))
    (fun _ => append1_ne _ _ _ (by decide))
    (fun _ _ => append2_ne _ _ _ _ (by decide))
    (fun _ _ => append2_ne _ _ _ _ (by decide))
    (fun _ _ => append2_ne _ _ _ _ (by decide))
    (fun _ _ => append2_ne _ _ _ _ (by decide))
    (fun _ _ _ => append3_ne _ _ _ _ _ (by decide))
    (fun _ => append1_ne _ _ _ (by decide))
    (fun _ _ _ => append3_ne _ _ _ _ _ (by decide))

/-- The interruption line `Scenario interrupted by user.` is never emitted
by a loop iteration's segment. -/
lemma interrupt_notin_segment (N : Nat) (env : StepEnv) (i : Nat) (a : Action) :
    "Scenario interrupted by user." ∉ logsOf (segment N env i a) :=
  notin_logsOf_segment N env i a _
    (fun _ _ _ _ _ => append5_ne _ _ _ _ _ _ _ (by decide))
    (fun _ => append1_ne _ _ _ (by decide))
    (fun _ => append1_ne _ _ _ (by decide))
    (fun _ => append1_ne _ _ _ (by decide))
    (fun _ _ => append2_ne _ _ _ _ (by decide))
    (fun _ _ => append2_ne _ _ _ _ (by decide))
    (fun _ _ => append2_ne _ _ _ _ (by decide))
    (fun _ _ => append2_ne _ _ _ _ (by decide))
    (fun _ _ _ => append3_ne _ _ _ _ _ (by decide))
    (fun _ => append1_ne _ _ _ (by decide))
    (fun _ _ _ => append3_ne _ _ _ _ _ (by decide))

lemma effectsOf_append (l₁ l₂ : List Event) :
    effectsOf (l₁ ++ l₂) = effectsOf l₁ ++ effectsOf l₂ := by
  simp [effectsOf]

lemma resultsOf_append (l₁ l₂ : List Event) :
    resultsOf (l₁ ++ l₂) = resultsOf l₁ ++ resultsOf l₂ := by
  simp [resultsOf]

/-- The terminal line is not emitted anywhere inside the loop: each
iteration either contributes its segment or the interruption line. -/
lemma completed_notin_runLoop (stopF : Nat → Bool) (env : Nat → StepEnv) (N : Nat) :
    ∀ (acts : List Action) (i : Nat),
      "Scenario completed" ∉ logsOf (runLoop stopF env N i acts).1 := by
  intro acts
  induction acts with
  | nil => intro i; simp [runLoop, logsOf]
  | cons a rest ih =>
      intro i
      unfold runLoop
      split
      · intro hmem
        rw [logsOf_cons_log, logsOf_nil] at hmem
        rcases List.mem_cons.mp hmem with hm | hm
        · exact absurd hm (by decide)
        · exact List.not_mem_nil _ hm
      · dsimp only
        rw [logsOf_append]
        intro hmem
        rcases List.mem_append.mp hmem with hm | hm
        · exact completed_notin_segment N (env i) i a hm
        · exact ih (i + 1) hm

/-- C1: for every action list (including the empty one), every runner state,
every stop schedule and every driver behaviour, `run` returns (it is a total
function of this model, so no per-action error escapes as a raised fault)
and its log stream contains the line `Scenario completed` exactly once, as
its final log line. -/
theorem run_completed_once_and_last (r : ScenarioRunner) (stopAt : Option Nat)
    (env : Nat → StepEnv) (actions : List Action) :
    (logsOf (r.run stopAt env actions).events).count "Scenario completed" = 1 ∧
    (logsOf (r.run stopAt env actions).events).getLast? = some "Scenario completed" := by
  unfold ScenarioRunner.run
  dsimp only
  rw [logsOf_append]
  have hnotin :
      "Scenario completed"
        ∉ logsOf (runLoop (stopRead r.stopped stopAt) env actions.length 1 actions).1 :=
    completed_notin_runLoop _ env actions.length actions 1
  constructor
  · rw [List.count_append, List.count_eq_zero.mpr hnotin]
    rfl
  · rw [show logsOf [Event.log "Scenario completed"] = ["Scenario completed"] from rfl]
    exact List.getLast?_concat _

/-- A loop in which no stop check ever fires dispatches every action: its
trace is the ordered concatenation of all segments, and it leaves the
caller's action list untouched. -/
lemma runLoop_no_stop (stopF : Nat → Bool) (env : Nat → StepEnv) (N : Nat)
    (hF : ∀ i, stopF i = false) :
    ∀ (acts : List Action) (i : Nat),
      runLoop stopF env N i acts = (segmentsFrom N env i acts, acts) := by
  intro acts
  induction acts with
  | nil => intro i; rfl
  | cons a rest ih =>
      intro i
      unfold runLoop
      rw [hF i]
      simp [segmentsFrom, ih (i + 1)]

/-- If the stop call lands in the window before the check of iteration `i`
(1-based), the loop dispatches every earlier action whole, emits the
interruption line at the boundary of iteration `i`, and dispatches nothing
from iteration `i` on. -/
lemma runLoop_stop_split (i : Nat) (env : Nat → StepEnv) (N : Nat) :
    ∀ (acts : List Action) (j : Nat), j ≤ i → i < j + acts.length →
      (runLoop (stopRead false (some i)) env N j acts).1
        = segmentsFrom N env j (acts.take (i - j))
          ++ [Event.log "Scenario interrupted by user."] := by
  intro acts
  induction acts with
  | nil =>
      intro j hji hlen
      simp at hlen
      omega
  | cons a rest ih =>
      intro j hji hlen
      unfold runLoop
      by_cases hij : i ≤ j
      · have hieq : i = j := le_antisymm hij hji
        have hread : stopRead false (some i) j = true := by
          simp [stopRead, hij]
        rw [hread]
        simp [hieq, segmentsFrom]
      · have hread : stopRead false (some i) j = false := by
          simp [stopRead]
          omega
        rw [hread]
        have htake : (a :: rest).take (i - j) = a :: rest.take (i - (j + 1)) := by
          have : i - j = (i - (j + 1)) + 1 := by omega
          rw [this, List.take_succ_cons]
        dsimp only
        rw [ih (j + 1) (by omega) (by simp at hlen ⊢; omega), htake]
        simp [segmentsFrom]

/-- The interruption line is not emitted by any segment of a no-stop stretch
of the loop. -/
lemma interrupt_notin_segmentsFrom (N : Nat) (env : Nat → StepEnv) :
    ∀ (acts : List Action) (i : Nat),
      "Scenario interrupted by user." ∉ logsOf (segmentsFrom N env i acts) := by
  intro acts
  induction acts with
  | nil => intro i; simp [segmentsFrom, logsOf]
  | cons a rest ih =>
      intro i
      unfold segmentsFrom
      rw [logsOf_append]
      intro hmem
      rcases List.mem_append.mp hmem with hm | hm
      · exact interrupt_notin_segment N (env i) i a hm
      · exact ih (i + 1) hm

/-- C2: if the stop flag becomes set in the window before the loop check of
iteration `i` of a fresh runner (with `i` within the action list), then the
whole trace is the complete segments of actions `1 .. i-1`, followed by the
interruption line, followed by the terminal line: every action before `i`
was dispatched whole (a stop never interrupts an in-flight dispatch and
nothing is undone), no action from `i` on is dispatched, and the
interruption line is emitted exactly once, at the boundary. -/
theorem stop_respects_action_boundary (env : Nat → StepEnv) (acts : List Action)
    (i : Nat) (h1 : 1 ≤ i) (h2 : i ≤ acts.length) :
    (ScenarioRunner.init.run (some i) env acts).events
      = segmentsFrom acts.length env 1 (acts.take (i - 1))
        ++ [Event.log "Scenario interrupted by user.", Event.log "Scenario completed"] ∧
    (logsOf (ScenarioRunner.init.run (some i) env acts).events).count
        "Scenario interrupted by user." = 1 := by
  have hsplit :
      (runLoop (stopRead false (some i)) env acts.length 1 acts).1
        = segmentsFrom acts.length env 1 (acts.take (i - 1))
          ++ [Event.log "Scenario interrupted by user."] :=
    runLoop_stop_split i env acts.length acts 1 h1 (by omega)
  have hev :
      (ScenarioRunner.init.run (some i) env acts).events
        = segmentsFrom acts.length env 1 (acts.take (i - 1))
          ++ [Event.log "Scenario interrupted by user.", Event.log "Scenario completed"] := by
    unfold ScenarioRunner.run
    dsimp only
    rw [show ScenarioRunner.init.stopped = false from rfl, hsplit, List.append_assoc]
    rfl
  refine ⟨hev, ?_⟩
  rw [hev, logsOf_append, List.count_append,
    List.count_eq_zero.mpr (interrupt_notin_segmentsFrom acts.length env _ 1)]
  rfl

/-- Witness for C2 at a concrete input: two actions, stop landing before
iteration 2, so exactly the first action is dispatched. -/
theorem stop_respects_action_boundary_witness :
    (1 ≤ 2 ∧ 2 ≤ ([{ type := some "open_url", url := some "https://x" },
      { type := some "wait" }] : List Action).length) ∧
    ((ScenarioRunner.init.run (some 2) (fun _ => {})
        [{ type := some "open_url", url := some "https://x" }, { type := some "wait" }]).events
      = segmentsFrom 2 (fun _ => {}) 1
          ([{ type := some "open_url", url := some "https://x" },
            { type := some "wait" }].take 1)
        ++ [Event.log "Scenario interrupted by user.", Event.log "Scenario completed"] ∧
    (logsOf (ScenarioRunner.init.run (some 2) (fun _ => {})
        [{ type := some "open_url", url := some "https://x" }, { type := some "wait" }]).events).count
        "Scenario interrupted by user." = 1) :=
  ⟨⟨by decide, by decide⟩,
    stop_respects_action_boundary (fun _ => {})
      [{ type := some "open_url", url := some "https://x" }, { type := some "wait" }]
      2 (by decide) (by decide)⟩

/-- The events of the segment of the action at position `i` (0-based) of a
list all occur in the no-stop trace of that list started at loop index `j`. -/
lemma segment_sub_segmentsFrom (N : Nat) (env : Nat → StepEnv) :
    ∀ (acts : List Action) (j i : Nat) (a : Action), acts.get? i = some a →
      ∀ ev ∈ segment N (env (j + i)) (j + i) a, ev ∈ segmentsFrom N env j acts := by
  intro acts
  induction acts with
  | nil => intro j i a ha; simp at ha
  | cons b rest ih =>
      intro j i a ha ev hev
      unfold segmentsFrom
      rcases i with _ | i'
      · simp at ha
        subst ha
        exact List.mem_append.mpr (Or.inl hev)
      · refine List.mem_append.mpr (Or.inr ?_)
        have ha' : rest.get? i' = some a := by simpa using ha
        have harith : (j + 1) + i' = j + (i' + 1) := by omega
        exact ih (j + 1) i' a ha' ev (by rw [harith]; exact hev)

/-- When the try-block body raises, the handled dispatch ends with the
formatted error line. -/
lemma error_log_mem_dispatchEvents (env : StepEnv) (a : Action) (e : String)
    (he : (dispatchStep env a).2 = some e) :
    Event.log ("Error executing action '" ++ descrOf a ++ "': " ++ e)
      ∈ dispatchEvents env a := by
  unfold dispatchEvents
  rw [he]
  exact List.mem_append.mpr (Or.inr (List.mem_singleton.mpr rfl))

/-- C3: a raise inside the dispatch of the action at 0-based position `i`
(loop iteration `i + 1`) is caught at the per-action boundary and logged in
the `Error executing action` format, and with no stop requested the run
still consists of the complete ordered segments of every action — in
particular every action after `i` is still dispatched.  No error escapes
`run`: in this model `run` is a total function into traces. -/
theorem dispatch_error_is_isolated (env : Nat → StepEnv) (acts : List Action)
    (i : Nat) (a : Action) (e : String)
    (ha : acts.get? i = some a)
    (he : (dispatchStep (env (i + 1)) a).2 = some e) :
    (ScenarioRunner.init.run none env acts).events
      = segmentsFrom acts.length env 1 acts ++ [Event.log "Scenario completed"] ∧
    Event.log ("Error executing action '" ++ descrOf a ++ "': " ++ e)
      ∈ (ScenarioRunner.init.run none env acts).events := by
  have hloop :
      runLoop (stopRead false none) env acts.length 1 acts
        = (segmentsFrom acts.length env 1 acts, acts) :=
    runLoop_no_stop _ env acts.length (fun _ => rfl) acts 1
  have hev :
      (ScenarioRunner.init.run none env acts).events
        = segmentsFrom acts.length env 1 acts ++ [Event.log "Scenario completed"] := by
    unfold ScenarioRunner.run
    dsimp only
    rw [show ScenarioRunner.init.stopped = false from rfl, hloop]
  refine ⟨hev, ?_⟩
  rw [hev]
  refine List.mem_append.mpr (Or.inl ?_)
  have hmem :
      Event.log ("Error executing action '" ++ descrOf a ++ "': " ++ e)
        ∈ segment acts.length (env (1 + i)) (1 + i) a := by
    unfold segment
    refine List.mem_cons.mpr (Or.inr ?_)
    rw [show 1 + i = i + 1 from by omega]
    exact error_log_mem_dispatchEvents (env (i + 1)) a e he
  exact segment_sub_segmentsFrom acts.length env acts 1 i a ha _ hmem

/-- Witness for C3 at a concrete input: a click whose element lookup raises,
followed by a wait action that is still dispatched. -/
theorem dispatch_error_is_isolated_witness :
    (([{ type := some "click", selector := some "#missing" },
        { type := some "wait" }] : List Action).get? 0
        = some { type := some "click", selector := some "#missing" } ∧
      (dispatchStep ({ findResult := Except.error "no such element" } : StepEnv)
          { type := some "click", selector := some "#missing" }).2
        = some "no such element") ∧
    ((ScenarioRunner.init.run none (fun _ => { findResult := Except.error "no such element" })
        [{ type := some "click", selector := some "#missing" }, { type := some "wait" }]).events
      = segmentsFrom 2 (fun _ => { findResult := Except.error "no such element" }) 1
          [{ type := some "click", selector := some "#missing" }, { type := some "wait" }]
        ++ [Event.log "Scenario completed"] ∧
    Event.log ("Error executing action '"
        ++ descrOf { type := some "click", selector := some "#missing" }
        ++ "': " ++ "no such element")
      ∈ (ScenarioRunner.init.run none (fun _ => { findResult := Except.error "no such element" })
          [{ type := some "click", selector := some "#missing" },
            { type := some "wait" }]).events) :=
  ⟨⟨by decide, by decide⟩,
    dispatch_error_is_isolated (fun _ => { findResult := Except.error "no such element" })
      [{ type := some "click", selector := some "#missing" }, { type := some "wait" }]
      0 { type := some "click", selector := some "#missing" } "no such element"
      (by decide) (by decide)⟩

lemma truthy_of_ne (s : String) (h : s ≠ "") : truthy (some s) = true := by
  unfold truthy
  rw [Bool.not_eq_true']
  exact Bool.eq_false_iff.mpr fun he => h ((String.isEmpty_iff s).mp he)

/-- The required locator or content field of the claim: `url` for
`open_url`, `selector` for `click`, `type` and `extract`, `key` for
`keypress`; missing means absent or empty, which Python's `if x:` treats
alike. -/
def requiredFieldMissing (a : Action) : Prop :=
  (a.type = some "open_url" ∧ truthy a.url = false) ∨
  (a.type = some "click" ∧ truthy a.selector = false) ∨
  (a.type = some "type" ∧ truthy a.selector = false) ∨
  (a.type = some "extract" ∧ truthy a.selector = false) ∨
  (a.type = some "keypress" ∧ truthy a.key = false)

instance (a : Action) : Decidable (requiredFieldMissing a) := by
  unfold requiredFieldMissing
  infer_instance

/-- C4: an action whose required locator or content field is empty or absent
dispatches as a silent no-op, whatever the driver would have answered: no
session-level side effect, no result batch, no log line of its own — neither
an error line nor any other — so the only line its loop iteration emits is
the informational progress line, and the loop then continues with the next
action. -/
theorem missing_required_field_is_noop (env : StepEnv) (a : Action)
    (h : requiredFieldMissing a) :
    dispatchEvents env a = [] ∧
    (∀ N i, segment N env i a = [Event.log (progressMsg i N a)]) := by
  have hstep : dispatchStep env a = ([], none) := by
    rcases h with ⟨ht, hf⟩ | ⟨ht, hf⟩ | ⟨ht, hf⟩ | ⟨ht, hf⟩ | ⟨ht, hf⟩ <;>
      simp [dispatchStep, ht, dispatchOpenUrl, dispatchClick, dispatchType,
        dispatchExtract, dispatchKeypress, hf]
  have hev : dispatchEvents env a = [] := by
    simp [dispatchEvents, hstep]
  exact ⟨hev, fun N i => by simp [segment, hev]⟩

/-- Witness for C4 at a concrete input: a click with no selector dispatches
nothing even against a driver whose calls would all raise. -/
theorem missing_required_field_is_noop_witness :
    requiredFieldMissing { type := some "click" } ∧
    (dispatchEvents { findResult := Except.error "boom" } { type := some "click" } = [] ∧
      (∀ N i, segment N { findResult := Except.error "boom" } i { type := some "click" }
        = [Event.log (progressMsg i N { type := some "click" })])) :=
  ⟨by decide,
    missing_required_field_is_noop { findResult := Except.error "boom" }
      { type := some "click" } (by decide)⟩

/-- C5: an extract action with a non-empty selector hands the result sink
exactly one batch, holding one record per matched element in document
order, each record associating the key `text` to the element's rendered
text; the log records the match count; and in a stop-free run the trace —
result batches included — is the ordered concatenation of the per-action
segments, so batches arrive in action order. -/
theorem extract_delivers_one_ordered_batch (env : StepEnv) (a : Action) (s : String)
    (ht : a.type = some "extract") (hs : a.selector = some s) (hne : s ≠ "") :
    resultsOf (dispatchEvents env a)
      = [env.findAllResult.map (fun el => [("text", el.text)])] ∧
    Event.log ("Extracted " ++ toString env.findAllResult.length ++ " elements using " ++ s)
      ∈ dispatchEvents env a ∧
    (∀ (envF : Nat → StepEnv) (acts : List Action),
      resultsOf (ScenarioRunner.init.run none envF acts).events
        = resultsOf (segmentsFrom acts.length envF 1 acts)) := by
  have htr : truthy (some s) = true := truthy_of_ne s hne
  have hstep :
      dispatchStep env a
        = ([Event.log ("Extracted " ++ toString env.findAllResult.length
              ++ " elements using " ++ s),
            Event.results (env.findAllResult.map (fun el => [("text", el.text)]))], none) := by
    simp [dispatchStep, ht, dispatchExtract, hs, htr]
  have hev :
      dispatchEvents env a
        = [Event.log ("Extracted " ++ toString env.findAllResult.length
              ++ " elements using " ++ s),
           Event.results (env.findAllResult.map (fun el => [("text", el.text)]))] := by
    simp [dispatchEvents, hstep]
  refine ⟨by simp [hev, resultsOf], by simp [hev], ?_⟩
  intro envF acts
  have hloop :
      runLoop (stopRead false none) envF acts.length 1 acts
        = (segmentsFrom acts.length envF 1 acts, acts) :=
    runLoop_no_stop _ envF acts.length (fun _ => rfl) acts 1
  unfold ScenarioRunner.run
  dsimp only
  rw [show ScenarioRunner.init.stopped = false from rfl, hloop, resultsOf_append]
  simp [resultsOf]

/-- Witness for C5 at a concrete input: a selector matching three elements
yields one batch of three records in document order. -/
theorem extract_delivers_one_ordered_batch_witness :
    (({ type := some "extract", selector := some ".item" } : Action).type = some "extract" ∧
      ({ type := some "extract", selector := some ".item" } : Action).selector = some ".item" ∧
      ".item" ≠ "") ∧
    (resultsOf (dispatchEvents
        { findAllResult := [⟨"one"⟩, ⟨"two"⟩, ⟨"three"⟩] }
        { type := some "extract", selector := some ".item" })
      = [[[("text", "one")], [("text", "two")], [("text", "three")]]] ∧
    Event.log ("Extracted "
        ++ toString ({ findAllResult := [⟨"one"⟩, ⟨"two"⟩, ⟨"three"⟩] } : StepEnv).findAllResult.length
        ++ " elements using " ++ ".item")
      ∈ dispatchEvents { findAllResult := [⟨"one"⟩, ⟨"two"⟩, ⟨"three"⟩] }
          { type := some "extract", selector := some ".item" }) := by
  have h := extract_delivers_one_ordered_batch
    { findAllResult := [⟨"one"⟩, ⟨"two"⟩, ⟨"three"⟩] }
    { type := some "extract", selector := some ".item" } ".item"
    (by decide) (by decide) (by decide)
  exact ⟨⟨by decide, by decide, by decide⟩, by simpa using h.1, h.2.1⟩

/-- C6 counterexample: the claim says a fresh `run` invocation on the same
runner after a previous `stop()` begins with an unset stop flag and
dispatches its actions from index 1.  On the code, `_stopped` is an
instance field that `run` never resets: after `stop()`, the flag is still
set when the next `run` begins, and that run dispatches nothing — while the
same invocation on a never-stopped runner navigates. -/
theorem stop_flag_not_per_run_counterexample :
    (ScenarioRunner.init.stop).stopped = true ∧
    effectsOf ((ScenarioRunner.init.stop).run none (fun _ => {})
        [{ type := some "open_url", url := some "https://x" }]).events = [] ∧
    logsOf ((ScenarioRunner.init.stop).run none (fun _ => {})
        [{ type := some "open_url", url := some "https://x" }]).events
      = ["Scenario interrupted by user.", "Scenario completed"] ∧
    effectsOf (ScenarioRunner.init.run none (fun _ => {})
        [{ type := some "open_url", url := some "https://x" }]).events
      = [Effect.navigate "https://x"] := by
  refine ⟨rfl, ?_, ?_, ?_⟩ <;> decide

/-- C6 amended: only the iteration cursor is created per `run` invocation;
the stop flag is owned by the runner instance and is never reset by `run`,
so any run entered with the flag set (for example a fresh invocation after
a previous `stop()`) dispatches no actions at all: it emits exactly the
interruption line and the terminal line, produces no session effect and no
result batch, and leaves the flag set. -/
theorem stop_flag_persists_across_runs (r : ScenarioRunner) (stopAt : Option Nat)
    (env : Nat → StepEnv) (a : Action) (acts : List Action)
    (h : r.stopped = true) :
    logsOf (r.run stopAt env (a :: acts)).events
      = ["Scenario interrupted by user.", "Scenario completed"] ∧
    effectsOf (r.run stopAt env (a :: acts)).events = [] ∧
    resultsOf (r.run stopAt env (a :: acts)).events = [] ∧
    (r.run stopAt env (a :: acts)).runner.stopped = true := by
  have hread : stopRead r.stopped stopAt 1 = true := by
    simp [stopRead, h]
  unfold ScenarioRunner.run
  dsimp only
  unfold runLoop
  rw [hread]
  refine ⟨?_, ?_, ?_, ?_⟩ <;> simp [logsOf, effectsOf, resultsOf, h]

/-- Witness for the amended C6 at a concrete input: a runner stopped before
this run dispatches nothing. -/
theorem stop_flag_persists_across_runs_witness :
    (ScenarioRunner.init.stop).stopped = true ∧
    (logsOf ((ScenarioRunner.init.stop).run none (fun _ => {})
        ({ type := some "wait" } :: [])).events
      = ["Scenario interrupted by user.", "Scenario completed"] ∧
    effectsOf ((ScenarioRunner.init.stop).run none (fun _ => {})
        ({ type := some "wait" } :: [])).events = [] ∧
    resultsOf ((ScenarioRunner.init.stop).run none (fun _ => {})
        ({ type := some "wait" } :: [])).events = [] ∧
    ((ScenarioRunner.init.stop).run none (fun _ => {})
        ({ type := some "wait" } :: [])).runner.stopped = true) :=
  ⟨rfl,
    stop_flag_persists_across_runs ScenarioRunner.init.stop none (fun _ => {})
      { type := some "wait" } [] rfl⟩

/-- C7 counterexample: the claim computes the delta from the raw
`direction` field, but the code lowercases it first.  For a scroll action
with `direction = "Down"` the code passes `+500` to the viewport scroll
effect while the claim's formula (`amount` when `direction == "down"`,
its negation otherwise) yields `-500`. -/
theorem scroll_delta_counterexample :
    effectsOf (dispatchEvents {}
        { type := some "scroll", direction := some "Down" })
      = [Effect.scrollBy 500] ∧
    (if ({ type := some "scroll", direction := some "Down" } : Action).direction.getD "down"
          = "down"
      then (({ type := some "scroll", direction := some "Down" } : Action).amount.getD 500)
      else -(({ type := some "scroll", direction := some "Down" } : Action).amount.getD 500))
      = -500 ∧
    (500 : Int) ≠ -500 := by
  refine ⟨?_, ?_, ?_⟩ <;> decide

/-- C7 amended: for every scroll action, the signed pixel delta passed to
the viewport scroll effect equals the integer value of `amount` when the
lowercased `direction` equals `down` and its negation otherwise, with
`direction` defaulting to `down` and `amount` defaulting to 500 when
absent; the scroll call is recorded exactly once whether or not the script
call then raises. -/
theorem scroll_delta_follows_lowercased_direction (env : StepEnv) (a : Action)
    (ht : a.type = some "scroll") :
    effectsOf (dispatchEvents env a)
      = [Effect.scrollBy (if lowerStr (a.direction.getD "down") = "down"
          then a.amount.getD 500 else -(a.amount.getD 500))] := by
  rcases hr : env.scrollResult with e | u <;>
    simp [dispatchEvents, dispatchStep, ht, dispatchScroll, hr, effectsOf]

/-- Witness for the amended C7 at a concrete input: direction `up` with
amount 200 scrolls by -200. -/
theorem scroll_delta_follows_lowercased_direction_witness :
    (({ type := some "scroll", direction := some "up", amount := some 200 } : Action).type
        = some "scroll") ∧
    effectsOf (dispatchEvents {}
        { type := some "scroll", direction := some "up", amount := some 200 })
      = [Effect.scrollBy (-200)] := by
  have h := scroll_delta_follows_lowercased_direction {}
    { type := some "scroll", direction := some "up", amount := some 200 } (by decide)
  refine ⟨by decide, ?_⟩
  rw [h]
  decide

/-- C8: a keypress with a non-empty key, dispatched while the session
reports a focused element, resolves the key case-insensitively through the
symbolic map (`enter`, `tab`, `escape`, `backspace` to the corresponding
selenium control-key constants) and sends every other value unchanged, as
literal input, to the focused element; exactly one send is recorded either
way. -/
theorem keypress_resolves_case_insensitively (env : StepEnv) (a : Action)
    (k : String) (el : Elem)
    (ht : a.type = some "keypress") (hk : a.key = some k) (hne : k ≠ "")
    (hel : env.activeElement = some el) :
    (lowerStr k = "enter" →
      effectsOf (dispatchEvents env a) = [Effect.sendKeysActive Keys.ENTER]) ∧
    (lowerStr k = "tab" →
      effectsOf (dispatchEvents env a) = [Effect.sendKeysActive Keys.TAB]) ∧
    (lowerStr k = "escape" →
      effectsOf (dispatchEvents env a) = [Effect.sendKeysActive Keys.ESCAPE]) ∧
    (lowerStr k = "backspace" →
      effectsOf (dispatchEvents env a) = [Effect.sendKeysActive Keys.BACKSPACE]) ∧
    (lowerStr k ∉ (["enter", "tab", "escape", "backspace"] : List String) →
      effectsOf (dispatchEvents env a) = [Effect.sendKeysActive k]) := by
  have htr : truthy (some k) = true := truthy_of_ne k hne
  have hbody : env.activeElement.isSome = true := by
    rw [hel]
    rfl
  have heff : effectsOf (dispatchEvents env a)
      = [Effect.sendKeysActive (resolveKey k)] := by
    rcases hr : env.activeSendResult with e | u <;>
      simp [dispatchEvents, dispatchStep, ht, dispatchKeypress, hk, htr, hbody, hr,
        effectsOf]
  rw [heff]
  refine ⟨?_, ?_, ?_, ?_, ?_⟩ <;> intro hcase
  · simp [resolveKey, hcase]
  · simp [resolveKey, hcase]
  · simp [resolveKey, hcase]
  · simp [resolveKey, hcase]
  · simp only [List.mem_cons, List.not_mem_nil, or_false, not_or] at hcase
    obtain ⟨n1, n2, n3, n4⟩ := hcase
    simp [resolveKey, n1, n2, n3, n4]

/-- Witness for C8 at concrete inputs: `Enter` resolves through the map
case-insensitively; `a` is sent literally. -/
theorem keypress_resolves_case_insensitively_witness :
    (lowerStr "Enter" = "enter" ∧
      effectsOf (dispatchEvents {} { type := some "keypress", key := some "Enter" })
        = [Effect.sendKeysActive Keys.ENTER]) ∧
    (lowerStr "a" ∉ (["enter", "tab", "escape", "backspace"] : List String) ∧
      effectsOf (dispatchEvents {} { type := some "keypress", key := some "a" })
        = [Effect.sendKeysActive "a"]) :=
  ⟨⟨by decide,
    (keypress_resolves_case_insensitively {} { type := some "keypress", key := some "Enter" }
      "Enter" ⟨""⟩ (by decide) (by decide) (by decide) (by decide)).1 (by decide)⟩,
  ⟨by decide,
    (keypress_resolves_case_insensitively {} { type := some "keypress", key := some "a" }
      "a" ⟨""⟩ (by decide) (by decide) (by decide) (by decide)).2.2.2.2 (by decide)⟩⟩

/-- The action with its unused `all` field erased: two actions with the same
`stripAll` image agree on every field the dispatcher can read. -/
def stripAll (a : Action) : Action := { a with allField := none }

lemma dispatchStep_ignores_allField (env : StepEnv) (a : Action) :
    dispatchStep env (stripAll a) = dispatchStep env a := rfl

lemma segment_congr_stripAll (N : Nat) (env : StepEnv) (i : Nat) (a b : Action)
    (h : stripAll a = stripAll b) : segment N env i a = segment N env i b := by
  have ha : segment N env i (stripAll a) = segment N env i a := rfl
  have hb : segment N env i (stripAll b) = segment N env i b := rfl
  rw [← ha, h, hb]

lemma runLoop_congr_stripAll (stopF : Nat → Bool) (env : Nat → StepEnv) (N : Nat) :
    ∀ (l₁ l₂ : List Action) (i : Nat), l₁.map stripAll = l₂.map stripAll →
      (runLoop stopF env N i l₁).1 = (runLoop stopF env N i l₂).1 := by
  intro l₁
  induction l₁ with
  | nil =>
      intro l₂ i h
      rw [List.map_eq_nil_iff.mp h.symm]
  | cons a t ih =>
      intro l₂ i h
      rcases l₂ with _ | ⟨b, t₂⟩
      · simp at h
      · simp only [List.map_cons, List.cons.injEq] at h
        obtain ⟨hab, ht⟩ := h
        unfold runLoop
        split
        · rfl
        · dsimp only
          rw [segment_congr_stripAll N (env i) i a b hab, ih t₂ (i + 1) ht]

/-- C9: two runs identical except for the `all` fields of their extract
actions produce identical traces — the same session effects, log lines and
result batches — and the same final runner state: the field is read by the
source but never used, and all matches are always collected. -/
theorem all_field_has_no_influence (r : ScenarioRunner) (stopAt : Option Nat)
    (env : Nat → StepEnv) (l₁ l₂ : List Action)
    (h : l₁.map stripAll = l₂.map stripAll) :
    (r.run stopAt env l₁).events = (r.run stopAt env l₂).events ∧
    (r.run stopAt env l₁).runner = (r.run stopAt env l₂).runner := by
  have hlen : l₁.length = l₂.length := by
    have hc := congrArg List.length h
    simpa using hc
  unfold ScenarioRunner.run
  dsimp only
  constructor
  · rw [runLoop_congr_stripAll (stopRead r.stopped stopAt) env l₁.length l₁ l₂ 1 h, hlen]
  · rfl

/-- Witness for C9 at a concrete input: the same extract with `all = false`
and with `all` absent yields identical events. -/
theorem all_field_has_no_influence_witness :
    ([{ type := some "extract", selector := some ".x", allField := some false }]
        : List Action).map stripAll
      = ([{ type := some "extract", selector := some ".x" }] : List Action).map stripAll ∧
    ((ScenarioRunner.init.run none (fun _ => { findAllResult := [⟨"v"⟩] })
        [{ type := some "extract", selector := some ".x", allField := some false }]).events
      = (ScenarioRunner.init.run none (fun _ => { findAllResult := [⟨"v"⟩] })
        [{ type := some "extract", selector := some ".x" }]).events ∧
    (ScenarioRunner.init.run none (fun _ => { findAllResult := [⟨"v"⟩] })
        [{ type := some "extract", selector := some ".x", allField := some false }]).runner
      = (ScenarioRunner.init.run none (fun _ => { findAllResult := [⟨"v"⟩] })
        [{ type := some "extract", selector := some ".x" }]).runner) :=
  ⟨by decide,
    all_field_has_no_influence ScenarioRunner.init none
      (fun _ => { findAllResult := [⟨"v"⟩] })
      [{ type := some "extract", selector := some ".x", allField := some false }]
      [{ type := some "extract", selector := some ".x" }] (by decide)⟩

lemma runLoop_preserves_actions (stopF : Nat → Bool) (env : Nat → StepEnv) (N : Nat) :
    ∀ (acts : List Action) (i : Nat), (runLoop stopF env N i acts).2 = acts := by
  intro acts
  induction acts with
  | nil => intro i; rfl
  | cons a rest ih =>
      intro i
      unfold runLoop
      split
      · rfl
      · dsimp only
        rw [ih (i + 1)]

/-- C10: `run` never mutates the caller-owned action sequence: the list it
iterated — threaded through every loop iteration and every outcome
(completion, stop, per-action errors) — is returned field-for-field equal
to the input. -/
theorem run_does_not_mutate_action_list (r : ScenarioRunner) (stopAt : Option Nat)
    (env : Nat → StepEnv) (acts : List Action) :
    (r.run stopAt env acts).actions = acts := by
  unfold ScenarioRunner.run
  dsimp only
  exact runLoop_preserves_actions _ env acts.length acts 1

end WebCrwBot
